import Mathlib

/-!
Shallow embedding of `src/webmap-to-gpx.py` (class `WebmapToGpx`).

Conventions of the embedding:
* Python strings are `List Char`; `str.split`, the `in` operator and
  `str.strip` are modelled by `pySplit`, `strContains` and `pyStrip` below,
  following the documented CPython semantics (leftmost non-overlapping
  occurrences for `split`, contiguous-substring test for `in`, removal of
  all leading/trailing occurrences for `strip`).
* Values produced by `chompjs.parse_js_object` are modelled by the inductive
  type `PyVal` (strings, numbers, lists, string-keyed objects).  Numeric
  literals are carried by an `Int` payload; the program only moves these
  values around and never computes with them, so the carrier is irrelevant.
  Object keys are assumed distinct, as produced by the parser.
* Exceptions are modelled by `Except PyError`; `raise ValueError(msg)`
  becomes `.error (.valueError msg)`, and the `IndexError` / `KeyError` /
  `TypeError` raised by subscripting become the corresponding constructors.
* Effects outside the process (the HTTP fetch, `chompjs`, `gpxpy`'s XML
  serializer, the filesystem) are parameters or output records: the fetched
  page text and the `chompjs` parser are arguments, and the final file write
  is returned as a `FileWrite` record instead of performed.
-/

namespace WebmapToGpx

/-- The Python exceptions that the embedded fragment can raise. -/
inductive PyError where
  | valueError (msg : String)
  | indexError
  | keyError
  | typeError
deriving DecidableEq, Repr

/-- Values produced by `chompjs.parse_js_object`: JSON-like trees of
strings, numbers, arrays and string-keyed objects. -/
inductive PyVal where
  | str (s : String)
  | num (n : Int)
  | list (xs : List PyVal)
  | dict (kvs : List (String × PyVal))

/-- Python equality `v == s` against a string literal `s`: true exactly for
the equal string, false for every non-string value (no exception). -/
def PyVal.eqStr (v : PyVal) (s : String) : Bool :=
  match v with
  | .str t => t == s
  | _ => false

/-- Python subscripting `v[k]` with a string key `k`:
a `KeyError` on an object without the key, a `TypeError` otherwise. -/
def dictGet : PyVal → String → Except PyError PyVal
  | .dict kvs, k =>
    match kvs.lookup k with
    | some v => .ok v
    | none => .error .keyError
  | .str _, _ => .error .typeError
  | .num _, _ => .error .typeError
  | .list _, _ => .error .typeError

/-- Python subscripting `v[i]` with a non-negative integer `i`:
indexing into a list or a string, `IndexError` when out of range.
(An object subscripted with an integer raises `KeyError`: our object
keys are all strings.) -/
def listGet : PyVal → Nat → Except PyError PyVal
  | .list xs, i =>
    match xs.get? i with
    | some v => .ok v
    | none => .error .indexError
  | .str s, i =>
    match s.data.get? i with
    | some c => .ok (.str (String.mk [c]))
    | none => .error .indexError
  | .dict _, _ => .error .keyError
  | .num _, _ => .error .typeError

/-- Python iteration `for x in v`: the elements of a list, the keys of an
object, the one-character strings of a string; a number is not iterable. -/
def pyIter : PyVal → Except PyError (List PyVal)
  | .list xs => .ok xs
  | .dict kvs => .ok (kvs.map (fun kv => .str kv.1))
  | .str s => .ok (s.data.map (fun c => .str (String.mk [c])))
  | .num _ => .error .typeError

/-- Python `len(v)`. -/
def pyLen : Except PyError PyVal → Except PyError Nat := fun v => do
  match (← v) with
  | .list xs => pure xs.length
  | .dict kvs => pure kvs.length
  | .str s => pure s.length
  | .num _ => throw .typeError

/-- Indexing a Python list of strings (the results of `str.split`). -/
def strListGet (xs : List (List Char)) (i : Nat) : Except PyError (List Char) :=
  match xs.get? i with
  | some v => .ok v
  | none => .error .indexError

/-- Index of the leftmost occurrence of `sep` in `s` (`none` if absent). -/
def findOcc (sep : List Char) : List Char → Option Nat
  | [] => if sep.isPrefixOf ([] : List Char) then some 0 else none
  | c :: rest =>
    if sep.isPrefixOf (c :: rest) then some 0
    else (findOcc sep rest).map (· + 1)

/-- Python substring test `sep in s`. -/
def strContains (s sep : List Char) : Bool := (findOcc sep s).isSome

/-- Fueled worker for `pySplit`; the fuel only serves structural recursion
and is irrelevant as soon as it exceeds the length of the string. -/
def pySplitFuel : Nat → List Char → List Char → List (List Char)
  | 0, _, s => [s]
  | fuel + 1, sep, s =>
    match findOcc sep s with
    | none => [s]
    | some p =>
      if sep.isEmpty then [s]
      else s.take p :: pySplitFuel fuel sep (s.drop (p + sep.length))

/-- Python `s.split(sep)` for a non-empty separator: cut at each leftmost
non-overlapping occurrence of `sep`.  (CPython raises on an empty
separator; the program only splits on fixed non-empty markers.) -/
def pySplit (sep s : List Char) : List (List Char) :=
  if sep.isEmpty then [s] else pySplitFuel (s.length + 1) sep s

/-- The prefix of `s` up to (excluding) the leftmost occurrence of `sep`,
or all of `s` when `sep` does not occur: this is `s.split(sep)[0]`. -/
def takeUpTo (sep s : List Char) : List Char :=
  match findOcc sep s with
  | none => s
  | some p => s.take p

/-- Python `s.strip(c)` for a one-character argument: remove every leading
and every trailing occurrence of `c`. -/
def pyStrip (c : Char) (s : List Char) : List Char :=
  ((s.dropWhile (· == c)).reverse.dropWhile (· == c)).reverse

/-- The single-quote character stripped from the page title. -/
def quoteChar : Char := '\''

/-- The marker `'<script type="text/javascript">'` (line 58 of the source). -/
def javascriptStartMarker : List Char := "<script type=\"text/javascript\">".toList

/-- The marker `"</script>"` (line 64 of the source). -/
def javascriptEndMarker : List Char := "</script>".toList

/-- The marker `"document.title = "` (line 74 of the source). -/
def documentTitleMarker : List Char := "document.title = ".toList

/-- The marker `"var lineData = "` (line 79 of the source). -/
def lineDataMarker : List Char := "var lineData = ".toList

/-- The marker `"var pointData = "` (lines 80 and 88 of the source). -/
def pointDataMarker : List Char := "var pointData = ".toList

/-- The marker `"var map = new maplibregl"` (line 89 of the source). -/
def mapMarker : List Char := "var map = new maplibregl".toList

/-- Lines 55-71 of `__parse_web_sources`: the empty-body check, the two
marker checks, and the computation of `javascript_sources` as
`webpage_sources.split(start)[1].split(end)[0]`. -/
def getScriptSources (webpageSources : List Char) : Except PyError (List Char) := do
  if webpageSources.length = 0 then
    throw (PyError.valueError "No webpage sources were retrieved!")
  else if ¬ strContains webpageSources javascriptStartMarker then
    throw (PyError.valueError "No javascript opening tag was found in webpage sources!")
  else if ¬ strContains webpageSources javascriptEndMarker then
    throw (PyError.valueError "No javascript closing tag was found in webpage sources!")
  else
    let webpageParts := pySplit javascriptStartMarker webpageSources
    let part1 ← strListGet webpageParts 1
    strListGet (pySplit javascriptEndMarker part1) 0

/-- Lines 73-77: `javascript_sources.split("document.title = ")[1].split(";")[0].strip("'")`. -/
def getPageName (javascriptSources : List Char) : Except PyError (List Char) := do
  let afterTitle ← strListGet (pySplit documentTitleMarker javascriptSources) 1
  let beforeSemicolon ← strListGet (pySplit [';'] afterTitle) 0
  pure (pyStrip quoteChar beforeSemicolon)

/-- Lines 79-80: `javascript_sources.split("var lineData = ")[1].split("var pointData = ")[0]`. -/
def getLineDataRaw (javascriptSources : List Char) : Except PyError (List Char) := do
  let javascriptParts := pySplit lineDataMarker javascriptSources
  let part1 ← strListGet javascriptParts 1
  strListGet (pySplit pointDataMarker part1) 0

/-- Lines 83-86: the argument of the waypoint-count log message,
`len(line_data_dict["features"][0]["geometry"]["coordinates"])`. -/
def waypointLogCount (lineDataDict : PyVal) : Except PyError Nat := do
  let features ← dictGet lineDataDict "features"
  let first ← listGet features 0
  let geometry ← dictGet first "geometry"
  pyLen (dictGet geometry "coordinates")

/-- Lines 88-89: `javascript_sources.split("var pointData = ")[1].split("var map = new maplibregl")[0]`. -/
def getPointDataRaw (javascriptSources : List Char) : Except PyError (List Char) := do
  let javascriptParts := pySplit pointDataMarker javascriptSources
  let part1 ← strListGet javascriptParts 1
  strListGet (pySplit mapMarker part1) 0

/-- Lines 92-95: the argument of the points-of-interest log message,
`len(point_data_dict["features"])`. -/
def pointLogCount (pointDataDict : PyVal) : Except PyError Nat :=
  pyLen (dictGet pointDataDict "features")

/-- Function `__parse_web_sources` (lines 48-97), from the decoded page text on.
The HTTP fetch is external: its decoded result is the `webpageSources`
argument. `chompjs.parse_js_object` is external: it is the
`parseJsObject` argument. -/
def parseWebSources (parseJsObject : List Char → Except PyError PyVal)
    (webpageSources : List Char) : Except PyError (List Char × PyVal) := do
  let javascriptSources ← getScriptSources webpageSources
  let pageName ← getPageName javascriptSources
  let lineDataRaw ← getLineDataRaw javascriptSources
  let lineDataDict ← parseJsObject lineDataRaw
  let _ ← waypointLogCount lineDataDict
  let pointDataRaw ← getPointDataRaw javascriptSources
  let pointDataDict ← parseJsObject pointDataRaw
  let _ ← pointLogCount pointDataDict
  pure (pageName, lineDataDict)

/-- The `Coordinate` dataclass (lines 22-25): the fields hold whatever
values the parsed coordinate pair held. -/
structure Coordinate where
  latitude : PyVal
  longitude : PyVal

/-- Line 110-112 / 121-123: `Coordinate(latitude=coordinate[1], longitude=coordinate[0])`
(the subscript `[1]` is evaluated first, as in the source's argument order). -/
def extractCoordinate (coordinate : PyVal) : Except PyError Coordinate := do
  let lat ← listGet coordinate 1
  let lon ← listGet coordinate 0
  pure { latitude := lat, longitude := lon }

/-- The inner loops of `__extract_tracks`: `for coordinate in cs: track.append(...)`
builds the list of extracted coordinates in input order. -/
def buildTrack : List PyVal → Except PyError (List Coordinate)
  | [] => .ok []
  | coordinate :: rest => do
    let c ← extractCoordinate coordinate
    let cs ← buildTrack rest
    pure (c :: cs)

/-- The `for line in raw_track["geometry"]["coordinates"]` loop of the
`MultiLineString` branch (lines 117-125): one extracted track per inner
line, in input order. -/
def buildLineTracks : List PyVal → Except PyError (List (List Coordinate))
  | [] => .ok []
  | line :: rest => do
    let track ← buildTrack (← pyIter line)
    let ts ← buildLineTracks rest
    pure (track :: ts)

/-- The body of the `for raw_track in line_data_dict["features"]` loop
(lines 106-125), acting on the accumulated `tracks` list: the two
independent `if` tests on `raw_track["geometry"]["type"]`, each appending
to `tracks`. -/
def stepFeature (tracks : List (List Coordinate)) (rawTrack : PyVal) :
    Except PyError (List (List Coordinate)) := do
  let ty1 ← dictGet (← dictGet rawTrack "geometry") "type"
  let tracks1 ←
    if ty1.eqStr "LineString" then do
      let coordinates ← pyIter (← dictGet (← dictGet rawTrack "geometry") "coordinates")
      let track ← buildTrack coordinates
      pure (tracks ++ [track])
    else
      pure tracks
  let ty2 ← dictGet (← dictGet rawTrack "geometry") "type"
  if ty2.eqStr "MultiLineString" then do
    let lines ← pyIter (← dictGet (← dictGet rawTrack "geometry") "coordinates")
    let newTracks ← buildLineTracks lines
    pure (tracks1 ++ newTracks)
  else
    pure tracks1

/-- The outer loop of `__extract_tracks` over the features. -/
def foldFeatures : List PyVal → List (List Coordinate) → Except PyError (List (List Coordinate))
  | [], tracks => .ok tracks
  | rawTrack :: rest, tracks => do
    let tracks' ← stepFeature tracks rawTrack
    foldFeatures rest tracks'

/-- Function `__extract_tracks` (lines 99-129): start from the empty `tracks` list
and run the feature loop over `line_data_dict["features"]`. -/
def extractTracks (lineDataDict : PyVal) : Except PyError (List (List Coordinate)) := do
  let features ← pyIter (← dictGet lineDataDict "features")
  foldFeatures features []

/-- Constructor call `gpxpy.gpx.GPXTrackPoint(lat, lon)` as used on line 146. -/
structure GPXTrackPoint where
  latitude : PyVal
  longitude : PyVal

/-- Class `gpxpy.gpx.GPXTrackSegment`: its list of points. -/
structure GPXTrackSegment where
  points : List GPXTrackPoint

/-- Class `gpxpy.gpx.GPXTrack`: its list of segments. -/
structure GPXTrack where
  segments : List GPXTrackSegment

/-- Class `gpxpy.gpx.GPX`: its list of tracks. -/
structure GPX where
  tracks : List GPXTrack

/-- Function `__convert_to_gpx` (lines 131-149).  The source appends the fresh
`gpx_track` to `gpx.tracks` before filling its segments in place; the
functional embedding fills the track first and wraps it at the end, which
yields the identical final structure. -/
def convertToGpx (tracks : List (List Coordinate)) : GPX :=
  let gpxTrack : GPXTrack := { segments := [] }
  let gpxTrack :=
    tracks.foldl
      (fun gpxTrack track =>
        let gpxSegment : GPXTrackSegment := { points := [] }
        let gpxSegment :=
          track.foldl
            (fun seg coordinate =>
              { seg with
                points := seg.points ++
                  [{ latitude := coordinate.latitude, longitude := coordinate.longitude }] })
            gpxSegment
        { gpxTrack with segments := gpxTrack.segments ++ [gpxSegment] })
      gpxTrack
  { tracks := [gpxTrack] }

/-- POSIX `os.path.join(a, b)` for two components: an absolute second
component discards the first; otherwise the components are joined,
inserting a separator unless one is already present. -/
def osPathJoin (a b : List Char) : List Char :=
  if b.head? = some '/' then b
  else if a = [] ∨ a.getLast? = some '/' then a ++ b
  else a ++ '/' :: b

/-- The observable effect of `__save_gpx_to_file` (lines 151-159): the
target path, the open mode (`"w"`: create or truncate, i.e. overwrite),
the text encoding, and the document handed to `gpx.to_xml()` (the gpxpy
serializer itself is external to the embedded fragment). -/
structure FileWrite where
  path : List Char
  mode : List Char
  encoding : List Char
  content : GPX

/-- Function `__save_gpx_to_file` (lines 151-159), with the directory of the
running script (`os.path.dirname(os.path.realpath(__file__))`) passed in
as `scriptDir`, and the write returned as a record instead of performed. -/
def saveGpxToFile (scriptDir pageName : List Char) (gpx : GPX) : FileWrite :=
  let gpxFilename := pageName ++ ".gpx".toList
  let gpxFilepath := osPathJoin scriptDir gpxFilename
  { path := gpxFilepath
    mode := "w".toList
    encoding := "utf-8".toList
    content := gpx }

/-- Method `parse` (lines 35-46): the four pipeline stages in sequence.  A raised
exception anywhere aborts the run, so a `FileWrite` is produced only when
every stage succeeded. -/
def parse (parseJsObject : List Char → Except PyError PyVal)
    (scriptDir webpageSources : List Char) : Except PyError FileWrite := do
  let parsed ← parseWebSources parseJsObject webpageSources
  let tracks ← extractTracks parsed.2
  let gpx := convertToGpx tracks
  pure (saveGpxToFile scriptDir parsed.1 gpx)

/-!
Spec-side definitions, written from the specification's words, to be
compared with the code-side definitions above.
-/

/-- Following the spec's words for the script text: the substring strictly
between the first occurrence of the opening marker and the first
subsequent occurrence of the closing marker. -/
def specScriptText (page : List Char) : Option (List Char) :=
  match findOcc javascriptStartMarker page with
  | none => none
  | some p =>
    let tail := page.drop (p + javascriptStartMarker.length)
    match findOcc javascriptEndMarker tail with
    | none => none
    | some q => some (tail.take q)

/-- Following the claim's words for the page title: strip a single leading
and a single trailing quote character. -/
def stripOneQuote (s : List Char) : List Char :=
  let s1 := if s.head? = some quoteChar then s.tail else s
  if s1.getLast? = some quoteChar then s1.dropLast else s1

/-- Following the spec's words for the track count contributed by one
feature: one for a `LineString`, one per inner line for a
`MultiLineString`, zero for any other geometry type. -/
def specTrackCount (f : PyVal) : Nat :=
  match dictGet f "geometry" with
  | .ok g =>
    match dictGet g "type" with
    | .ok ty =>
      if ty.eqStr "LineString" then 1
      else if ty.eqStr "MultiLineString" then
        match dictGet g "coordinates" with
        | .ok (.list lines) => lines.length
        | _ => 0
      else 0
    | .error _ => 0
  | .error _ => 0

/-!
Shape predicates describing the inputs the track builder is given:
a feature collection in which every coordinate is a pair (a list that the
subscripts `[0]` and `[1]` accept).
-/

/-- A coordinate the source can subscript at `[1]` and `[0]`: a list with
at least two entries. -/
def coordOk : PyVal → Bool
  | .list (_ :: _ :: _) => true
  | _ => false

/-- A line: a list of coordinates. -/
def lineOk : PyVal → Bool
  | .list cl => cl.all coordOk
  | _ => false

/-- A feature the track builder processes without an exception: its
geometry and type exist, and the coordinates have the shape the taken
branch subscripts (any shape is fine for a skipped geometry type). -/
def featureOk (f : PyVal) : Bool :=
  match dictGet f "geometry" with
  | .ok g =>
    match dictGet g "type" with
    | .ok ty =>
      if ty.eqStr "LineString" then
        match dictGet g "coordinates" with
        | .ok c => lineOk c
        | .error _ => false
      else if ty.eqStr "MultiLineString" then
        match dictGet g "coordinates" with
        | .ok (.list lines) => lines.all lineOk
        | _ => false
      else true
    | .error _ => false
  | .error _ => false

/-- The tracks a single feature contributes: what the loop body appends
when run on that feature alone (`[]` when the body raises, a case that
never holds where this definition is used). -/
def featureTracks (f : PyVal) : List (List Coordinate) :=
  match stepFeature [] f with
  | .ok new => new
  | .error _ => []

/-!
Concrete inputs used by the witnesses and counterexamples.
-/

/-- A `chompjs` stand-in returning a fixed parsed value. -/
def constParser (v : PyVal) : List Char → Except PyError PyVal := fun _ => .ok v

/-- A `LineString` feature with two coordinate pairs. -/
def demoLineString : PyVal :=
  .dict [("geometry", .dict
    [("type", .str "LineString"),
     ("coordinates", .list [.list [.num 10, .num 20], .list [.num 11, .num 21]])])]

/-- A feature of a skipped geometry type. -/
def demoPoint : PyVal :=
  .dict [("geometry", .dict
    [("type", .str "Point"),
     ("coordinates", .list [.num 1, .num 2])])]

/-- A `MultiLineString` feature with two inner lines of one and two pairs. -/
def demoMulti : PyVal :=
  .dict [("geometry", .dict
    [("type", .str "MultiLineString"),
     ("coordinates", .list
       [.list [.list [.num 1, .num 2]],
        .list [.list [.num 3, .num 4], .list [.num 5, .num 6]]])])]

/-- The demo feature list. -/
def demoFeatures : List PyVal := [demoLineString, demoPoint, demoMulti]

/-- The demo parsed `lineData` value. -/
def demoLineData : PyVal := .dict [("features", .list demoFeatures)]

/-- A parsed `lineData` value with an empty feature list. -/
def emptyFeaturesDict : PyVal := .dict [("features", .list [])]

/-- A well-formed demo page: one script block with the title assignment,
the `lineData` assignment, the `pointData` assignment and the map
constructor, in source order. -/
def demoPage : List Char :=
  "<html>".toList ++ javascriptStartMarker ++
    documentTitleMarker ++ quoteChar :: "Trip".toList ++ quoteChar :: ";".toList ++
    lineDataMarker ++ "\x7b\x7d;".toList ++
    pointDataMarker ++ "\x7b\x7d;".toList ++
    mapMarker ++ javascriptEndMarker ++ "</html>".toList

/-- A page on which the opening marker occurs a second time before the
first closing marker: the claimed "substring strictly between the first
opening marker and the first subsequent closing marker" is
`'B' :: javascriptStartMarker ++ ['C']`, while the code stops at the
second opening marker and returns `['B']`. -/
def c4Page : List Char :=
  javascriptStartMarker ++ 'B' :: javascriptStartMarker ++ 'C' :: javascriptEndMarker ++ ['D']

/-- A script text whose title value is `x` wrapped in two quotes on each
side: the code strips all four quotes, the claim predicts one from each
end. -/
def c6Js : List Char :=
  documentTitleMarker ++ [quoteChar, quoteChar, 'x', quoteChar, quoteChar, ';']

/-- An empty GPX document for the file-writer statements. -/
def demoGpx : GPX := convertToGpx []

/-- The script text embedded in `demoPage`. -/
def demoScriptText : List Char :=
  documentTitleMarker ++ quoteChar :: "Trip".toList ++ quoteChar :: ";".toList ++
    lineDataMarker ++ "\x7b\x7d;".toList ++
    pointDataMarker ++ "\x7b\x7d;".toList ++ mapMarker

/-- The track collection the builder extracts from `demoLineData`. -/
def demoExtracted : List (List Coordinate) :=
  [[{ latitude := .num 20, longitude := .num 10 },
    { latitude := .num 21, longitude := .num 11 }],
   [{ latitude := .num 2, longitude := .num 1 }],
   [{ latitude := .num 4, longitude := .num 3 },
    { latitude := .num 6, longitude := .num 5 }]]

/-- A one-track demo collection for the GPX-writer witness. -/
def demoTracks : List (List Coordinate) :=
  [[{ latitude := PyVal.num 20, longitude := PyVal.num 10 }]]

/-- A page with no script markers at all. -/
def pageNoScript : List Char := "X".toList

/-- A page with an opening script marker but no closing one. -/
def pageOnlyOpen : List Char := javascriptStartMarker ++ "X".toList

/-- A page whose script block has no title assignment. -/
def pageNoTitle : List Char :=
  javascriptStartMarker ++ "abc".toList ++ javascriptEndMarker

/-- A page whose script block has a title assignment but no `lineData`. -/
def pageNoLineData : List Char :=
  javascriptStartMarker ++ documentTitleMarker ++ quoteChar :: "T".toList ++
    quoteChar :: ";".toList ++ javascriptEndMarker

/-!
### Lemmas: the `Except` monad
-/

theorem ok_bind {α β : Type} (a : α) (g : α → Except PyError β) :
    (Except.ok a >>= g) = g a := rfl

theorem error_bind {α β : Type} (e : PyError) (g : α → Except PyError β) :
    ((Except.error e : Except PyError α) >>= g) = .error e := rfl

theorem pure_eq_ok {α : Type} (a : α) : (pure a : Except PyError α) = .ok a := rfl

theorem throw_eq_error {α : Type} (e : PyError) : (throw e : Except PyError α) = .error e := rfl

/-!
### Lemmas: the string model
-/

theorem findOcc_bound {sep s : List Char} {p : Nat} (h : findOcc sep s = some p) :
    p + sep.length ≤ s.length := by
  induction s generalizing p with
  | nil =>
    simp only [findOcc] at h
    split at h
    · next hpre =>
      have : sep = [] := by
        simpa using (List.isPrefixOf_iff_prefix.mp hpre)
      cases h
      simp [this]
    · cases h
  | cons c rest ih =>
    simp only [findOcc] at h
    split at h
    · next hpre =>
      cases h
      simpa using (List.isPrefixOf_iff_prefix.mp hpre).length_le
    · next hpre =>
      rcases Option.map_eq_some'.mp h with ⟨p', hp', rfl⟩
      have := ih hp'
      simp only [List.length_cons]
      omega

theorem length_pos_of_not_isEmpty {sep : List Char} (h : sep.isEmpty = false) :
    1 ≤ sep.length := by
  cases sep with
  | nil => simp at h
  | cons a as => simp

theorem pySplitFuel_irrel {sep : List Char} {f1 f2 : Nat} {s : List Char}
    (h1 : s.length < f1) (h2 : s.length < f2) :
    pySplitFuel f1 sep s = pySplitFuel f2 sep s := by
  induction f1 generalizing f2 s with
  | zero => omega
  | succ n ih =>
    cases f2 with
    | zero => omega
    | succ m =>
      simp only [pySplitFuel]
      cases hocc : findOcc sep s with
      | none => rfl
      | some p =>
        cases hsep : sep.isEmpty with
        | true => simp
        | false =>
          simp only [Bool.false_eq_true, if_false]
          have hbound := findOcc_bound hocc
          have hlen := length_pos_of_not_isEmpty hsep
          have hd : (s.drop (p + sep.length)).length < n := by
            rw [List.length_drop]
            omega
          have hd2 : (s.drop (p + sep.length)).length < m := by
            rw [List.length_drop]
            omega
          rw [ih hd hd2]

theorem pySplit_of_none {sep s : List Char} (h : findOcc sep s = none) :
    pySplit sep s = [s] := by
  unfold pySplit
  cases hsep : sep.isEmpty with
  | true => simp
  | false =>
    simp only [Bool.false_eq_true, if_false, pySplitFuel, h]

theorem pySplit_eq_fuel {sep s : List Char} (f : Nat)
    (hsep : sep.isEmpty = false) (hf : s.length < f) :
    pySplit sep s = pySplitFuel f sep s := by
  unfold pySplit
  simp only [hsep, Bool.false_eq_true, if_false]
  exact pySplitFuel_irrel (Nat.lt_succ_self _) hf

theorem pySplit_of_some {sep s : List Char} {p : Nat}
    (hsep : sep.isEmpty = false) (h : findOcc sep s = some p) :
    pySplit sep s = s.take p :: pySplit sep (s.drop (p + sep.length)) := by
  have hbound := findOcc_bound h
  have hlen := length_pos_of_not_isEmpty hsep
  have hdrop : (s.drop (p + sep.length)).length < s.length := by
    rw [List.length_drop]; omega
  rw [pySplit_eq_fuel (s.length + 1) hsep (Nat.lt_succ_self _),
    pySplit_eq_fuel s.length hsep hdrop]
  simp only [pySplitFuel, h, hsep, Bool.false_eq_true, if_false]

theorem strListGet_pySplit_zero {sep s : List Char} (hsep : sep.isEmpty = false) :
    strListGet (pySplit sep s) 0 = .ok (takeUpTo sep s) := by
  cases hocc : findOcc sep s with
  | none => rw [pySplit_of_none hocc]; simp [strListGet, takeUpTo, hocc]
  | some p => rw [pySplit_of_some hsep hocc]; simp [strListGet, takeUpTo, hocc]

theorem strListGet_pySplit_one {sep s : List Char} {p : Nat}
    (hsep : sep.isEmpty = false) (h : findOcc sep s = some p) :
    strListGet (pySplit sep s) 1 =
      .ok (takeUpTo sep (s.drop (p + sep.length))) := by
  rw [pySplit_of_some hsep h]
  show strListGet (pySplit sep (s.drop (p + sep.length))) 0 = _
  exact strListGet_pySplit_zero hsep

theorem strListGet_pySplit_one_none {sep s : List Char} (h : findOcc sep s = none) :
    strListGet (pySplit sep s) 1 = .error .indexError := by
  rw [pySplit_of_none h]; rfl

theorem strContains_true_iff {s sep : List Char} :
    strContains s sep = true ↔ ∃ p, findOcc sep s = some p := by
  simp [strContains, Option.isSome_iff_exists]

theorem strContains_false_iff {s sep : List Char} :
    strContains s sep = false ↔ findOcc sep s = none := by
  cases h : findOcc sep s <;> simp [strContains, h]

theorem strListGet_pySplit_one_ok {sep s t : List Char}
    (h : strListGet (pySplit sep s) 1 = .ok t) :
    strContains s sep = true := by
  cases hocc : findOcc sep s with
  | none => rw [strListGet_pySplit_one_none hocc] at h; cases h
  | some p => exact strContains_true_iff.mpr ⟨p, hocc⟩

theorem startMarker_not_empty : javascriptStartMarker.isEmpty = false := by decide

theorem endMarker_not_empty : javascriptEndMarker.isEmpty = false := by decide

theorem titleMarker_not_empty : documentTitleMarker.isEmpty = false := by decide

theorem lineDataMarker_not_empty : lineDataMarker.isEmpty = false := by decide

theorem pointDataMarker_not_empty : pointDataMarker.isEmpty = false := by decide

theorem mapMarker_not_empty : mapMarker.isEmpty = false := by decide

theorem semicolon_not_empty : ([';'] : List Char).isEmpty = false := by decide

/-!
### Lemmas: the embedded-script extractor
-/

theorem getScriptSources_empty {page : List Char} (h : page.length = 0) :
    getScriptSources page = .error (.valueError "No webpage sources were retrieved!") := by
  unfold getScriptSources
  simp [h, throw_eq_error]

theorem getScriptSources_no_open {page : List Char} (hne : ¬ page.length = 0)
    (h : strContains page javascriptStartMarker = false) :
    getScriptSources page =
      .error (.valueError "No javascript opening tag was found in webpage sources!") := by
  unfold getScriptSources
  simp [hne, h, throw_eq_error]

theorem getScriptSources_no_close {page : List Char}
    (hopen : strContains page javascriptStartMarker = true)
    (h : strContains page javascriptEndMarker = false) :
    getScriptSources page =
      .error (.valueError "No javascript closing tag was found in webpage sources!") := by
  have hne : ¬ page.length = 0 := by
    rcases strContains_true_iff.mp hopen with ⟨p, hp⟩
    have := findOcc_bound hp
    have := length_pos_of_not_isEmpty startMarker_not_empty
    omega
  unfold getScriptSources
  simp [hne, hopen, h, throw_eq_error]

theorem getScriptSources_of_occ {page : List Char} {p : Nat}
    (hp : findOcc javascriptStartMarker page = some p)
    (hclose : strContains page javascriptEndMarker = true) :
    getScriptSources page = .ok (takeUpTo javascriptEndMarker
      (takeUpTo javascriptStartMarker (page.drop (p + javascriptStartMarker.length)))) := by
  have hopen : strContains page javascriptStartMarker = true :=
    strContains_true_iff.mpr ⟨p, hp⟩
  have hne : ¬ page.length = 0 := by
    have := findOcc_bound hp
    have := length_pos_of_not_isEmpty startMarker_not_empty
    omega
  unfold getScriptSources
  simp only [hne, hopen, hclose, not_true, if_neg, if_false, Bool.true_eq_false,
    not_false_eq_true, ite_false, ite_true, if_true]
  rw [strListGet_pySplit_one startMarker_not_empty hp]
  simp only [ok_bind]
  rw [strListGet_pySplit_zero endMarker_not_empty]

theorem getPageName_of_occ {js : List Char} {p : Nat}
    (hp : findOcc documentTitleMarker js = some p) :
    getPageName js = .ok (pyStrip quoteChar (takeUpTo [';']
      (takeUpTo documentTitleMarker (js.drop (p + documentTitleMarker.length))))) := by
  unfold getPageName
  rw [strListGet_pySplit_one titleMarker_not_empty hp]
  simp only [ok_bind]
  rw [strListGet_pySplit_zero semicolon_not_empty]
  simp only [ok_bind, pure_eq_ok]

theorem getPageName_no_marker {js : List Char}
    (h : findOcc documentTitleMarker js = none) :
    getPageName js = .error .indexError := by
  unfold getPageName
  rw [strListGet_pySplit_one_none h]
  rfl

theorem getLineDataRaw_no_marker {js : List Char}
    (h : findOcc lineDataMarker js = none) :
    getLineDataRaw js = .error .indexError := by
  unfold getLineDataRaw
  dsimp only
  rw [strListGet_pySplit_one_none h]
  rfl

theorem getPointDataRaw_no_marker {js : List Char}
    (h : findOcc pointDataMarker js = none) :
    getPointDataRaw js = .error .indexError := by
  unfold getPointDataRaw
  dsimp only
  rw [strListGet_pySplit_one_none h]
  rfl

theorem getPointDataRaw_ok {js t : List Char} (h : getPointDataRaw js = .ok t) :
    strContains js pointDataMarker = true := by
  unfold getPointDataRaw at h
  dsimp only at h
  cases hocc : findOcc pointDataMarker js with
  | none => rw [strListGet_pySplit_one_none hocc] at h; cases h
  | some p => exact strContains_true_iff.mpr ⟨p, hocc⟩

/-!
### Lemmas: error propagation through the pipeline
-/

theorem parseWebSources_error_script {pjs : List Char → Except PyError PyVal}
    {page : List Char} {e : PyError} (h : getScriptSources page = .error e) :
    parseWebSources pjs page = .error e := by
  unfold parseWebSources
  rw [h]
  rfl

theorem parseWebSources_error_pageName {pjs : List Char → Except PyError PyVal}
    {page js : List Char} {e : PyError} (hjs : getScriptSources page = .ok js)
    (h : getPageName js = .error e) :
    parseWebSources pjs page = .error e := by
  unfold parseWebSources
  rw [hjs]
  simp only [ok_bind]
  rw [h]
  rfl

theorem parseWebSources_error_lineData {pjs : List Char → Except PyError PyVal}
    {page js name : List Char} {e : PyError} (hjs : getScriptSources page = .ok js)
    (hname : getPageName js = .ok name) (h : getLineDataRaw js = .error e) :
    parseWebSources pjs page = .error e := by
  unfold parseWebSources
  rw [hjs]
  simp only [ok_bind]
  rw [hname]
  simp only [ok_bind]
  rw [h]
  rfl

theorem parseWebSources_error_waypointLog {pjs : List Char → Except PyError PyVal}
    {page js name raw : List Char} {ld : PyVal} {e : PyError}
    (hjs : getScriptSources page = .ok js) (hname : getPageName js = .ok name)
    (hraw : getLineDataRaw js = .ok raw) (hld : pjs raw = .ok ld)
    (h : waypointLogCount ld = .error e) :
    parseWebSources pjs page = .error e := by
  unfold parseWebSources
  rw [hjs]
  simp only [ok_bind]
  rw [hname]
  simp only [ok_bind]
  rw [hraw]
  simp only [ok_bind]
  rw [hld]
  simp only [ok_bind]
  rw [h]
  rfl

theorem parseWebSources_ok_inv {pjs : List Char → Except PyError PyVal}
    {page name : List Char} {ld : PyVal}
    (h : parseWebSources pjs page = .ok (name, ld)) :
    ∃ js, getScriptSources page = .ok js ∧ getPageName js = .ok name ∧
      (∃ raw, getLineDataRaw js = .ok raw ∧ pjs raw = .ok ld) ∧
      (∃ n, waypointLogCount ld = .ok n) ∧
      (∃ praw, getPointDataRaw js = .ok praw ∧
        ∃ pd, pjs praw = .ok pd ∧ ∃ m, pointLogCount pd = .ok m) := by
  unfold parseWebSources at h
  cases h1 : getScriptSources page with
  | error e => rw [h1] at h; cases h
  | ok js =>
    rw [h1] at h
    simp only [ok_bind] at h
    cases h2 : getPageName js with
    | error e => rw [h2] at h; cases h
    | ok nm =>
      rw [h2] at h
      simp only [ok_bind] at h
      cases h3 : getLineDataRaw js with
      | error e => rw [h3] at h; cases h
      | ok raw =>
        rw [h3] at h
        simp only [ok_bind] at h
        cases h4 : pjs raw with
        | error e => rw [h4] at h; cases h
        | ok ld' =>
          rw [h4] at h
          simp only [ok_bind] at h
          cases h5 : waypointLogCount ld' with
          | error e => rw [h5] at h; cases h
          | ok n =>
            rw [h5] at h
            simp only [ok_bind] at h
            cases h6 : getPointDataRaw js with
            | error e => rw [h6] at h; cases h
            | ok praw =>
              rw [h6] at h
              simp only [ok_bind] at h
              cases h7 : pjs praw with
              | error e => rw [h7] at h; cases h
              | ok pd =>
                rw [h7] at h
                simp only [ok_bind] at h
                cases h8 : pointLogCount pd with
                | error e => rw [h8] at h; cases h
                | ok m =>
                  rw [h8] at h
                  simp only [ok_bind, pure_eq_ok, Except.ok.injEq, Prod.mk.injEq] at h
                  obtain ⟨hn, hl⟩ := h
                  subst hn hl
                  exact ⟨js, rfl, h2, ⟨raw, h3, h4⟩, ⟨n, h5⟩, praw, h6, pd, h7, m, h8⟩

theorem parse_error_of_sources {pjs : List Char → Except PyError PyVal}
    {scriptDir page : List Char} {e : PyError}
    (h : parseWebSources pjs page = .error e) :
    parse pjs scriptDir page = .error e := by
  unfold parse
  rw [h]
  rfl

theorem parse_ok_inv {pjs : List Char → Except PyError PyVal}
    {scriptDir page : List Char} {fw : FileWrite}
    (h : parse pjs scriptDir page = .ok fw) :
    ∃ name ld, parseWebSources pjs page = .ok (name, ld) ∧
      ∃ tracks, extractTracks ld = .ok tracks ∧
        fw = saveGpxToFile scriptDir name (convertToGpx tracks) := by
  unfold parse at h
  cases h1 : parseWebSources pjs page with
  | error e => rw [h1] at h; cases h
  | ok pr =>
    rw [h1] at h
    simp only [ok_bind] at h
    cases h2 : extractTracks pr.2 with
    | error e => rw [h2] at h; cases h
    | ok tracks =>
      rw [h2] at h
      simp only [ok_bind, pure_eq_ok, Except.ok.injEq] at h
      exact ⟨pr.1, pr.2, rfl, tracks, h2, h.symm⟩

/-!
### Lemmas: the track builder
-/

theorem map_ok {α β : Type} (f : α → β) (a : α) :
    (Except.ok a : Except PyError α).map f = .ok (f a) := rfl

theorem map_error {α β : Type} (f : α → β) (e : PyError) :
    (Except.error e : Except PyError α).map f = .error e := rfl

theorem fmap_ok {α β : Type} (f : α → β) (a : α) :
    (f <$> (Except.ok a : Except PyError α)) = .ok (f a) := rfl

theorem fmap_error {α β : Type} (f : α → β) (e : PyError) :
    (f <$> (Except.error e : Except PyError α)) = .error e := rfl

theorem eqStr_true_iff {v : PyVal} {s : String} : v.eqStr s = true ↔ v = .str s := by
  cases v <;> simp [PyVal.eqStr]

theorem eqStr_ls_not_mls {ty : PyVal} (h : ty.eqStr "LineString" = true) :
    ty.eqStr "MultiLineString" = false := by
  rw [eqStr_true_iff] at h
  subst h
  decide

theorem extractCoordinate_pair (lon lat : PyVal) (rest : List PyVal) :
    extractCoordinate (.list (lon :: lat :: rest)) = .ok ⟨lat, lon⟩ := rfl

theorem extractCoordinate_ok_of_coordOk {c : PyVal} (h : coordOk c = true) :
    ∃ co, extractCoordinate c = .ok co := by
  cases c with
  | list xs =>
    match xs with
    | x :: y :: rest => exact ⟨⟨y, x⟩, rfl⟩
    | [] => simp [coordOk] at h
    | [x] => simp [coordOk] at h
  | str s => simp [coordOk] at h
  | num n => simp [coordOk] at h
  | dict kvs => simp [coordOk] at h

theorem buildTrack_length {cl : List PyVal} {t : List Coordinate}
    (h : buildTrack cl = .ok t) : t.length = cl.length := by
  induction cl generalizing t with
  | nil =>
    simp only [buildTrack, Except.ok.injEq] at h
    subst h
    rfl
  | cons c cs ih =>
    simp only [buildTrack] at h
    cases hc : extractCoordinate c with
    | error e => rw [hc] at h; simp only [error_bind] at h; cases h
    | ok co =>
      rw [hc] at h
      simp only [ok_bind] at h
      cases hr : buildTrack cs with
      | error e => rw [hr] at h; simp only [error_bind] at h; cases h
      | ok ts =>
        rw [hr] at h
        simp only [ok_bind, pure_eq_ok, Except.ok.injEq] at h
        subst h
        simp [ih hr]

theorem buildTrack_get {cl : List PyVal} {t : List Coordinate}
    (h : buildTrack cl = .ok t) :
    ∀ (i : Nat) (lon lat : PyVal) (rest : List PyVal),
      cl.get? i = some (.list (lon :: lat :: rest)) →
      t.get? i = some ⟨lat, lon⟩ := by
  induction cl generalizing t with
  | nil => intro i lon lat rest hi; simp at hi
  | cons c cs ih =>
    intro i lon lat rest hi
    simp only [buildTrack] at h
    cases hc : extractCoordinate c with
    | error e => rw [hc] at h; simp only [error_bind] at h; cases h
    | ok co =>
      rw [hc] at h
      simp only [ok_bind] at h
      cases hr : buildTrack cs with
      | error e => rw [hr] at h; simp only [error_bind] at h; cases h
      | ok ts =>
        rw [hr] at h
        simp only [ok_bind, pure_eq_ok, Except.ok.injEq] at h
        subst h
        cases i with
        | zero =>
          simp only [List.get?_cons_zero, Option.some.injEq] at hi
          subst hi
          rw [extractCoordinate_pair] at hc
          injection hc with hco
          subst hco
          rfl
        | succ j =>
          simp only [List.get?_cons_succ] at hi ⊢
          exact ih hr j lon lat rest hi

theorem buildTrack_mem {cl : List PyVal} {t : List Coordinate}
    (h : buildTrack cl = .ok t) :
    ∀ lon lat : PyVal, PyVal.list [lon, lat] ∈ cl → Coordinate.mk lat lon ∈ t := by
  induction cl generalizing t with
  | nil => intro lon lat hm; simp at hm
  | cons c cs ih =>
    intro lon lat hm
    simp only [buildTrack] at h
    cases hc : extractCoordinate c with
    | error e => rw [hc] at h; simp only [error_bind] at h; cases h
    | ok co =>
      rw [hc] at h
      simp only [ok_bind] at h
      cases hr : buildTrack cs with
      | error e => rw [hr] at h; simp only [error_bind] at h; cases h
      | ok ts =>
        rw [hr] at h
        simp only [ok_bind, pure_eq_ok, Except.ok.injEq] at h
        subst h
        rcases List.mem_cons.mp hm with hm | hm
        · subst hm
          rw [extractCoordinate_pair] at hc
          injection hc with hco
          subst hco
          exact List.mem_cons_self _ _
        · exact List.mem_cons_of_mem _ (ih hr lon lat hm)

theorem buildTrack_ok_of_all {cl : List PyVal} (h : cl.all coordOk = true) :
    ∃ t, buildTrack cl = .ok t := by
  induction cl with
  | nil => exact ⟨[], rfl⟩
  | cons c cs ih =>
    simp only [List.all_cons, Bool.and_eq_true] at h
    obtain ⟨hc, hcs⟩ := h
    obtain ⟨co, hco⟩ := extractCoordinate_ok_of_coordOk hc
    obtain ⟨ts, hts⟩ := ih hcs
    refine ⟨co :: ts, ?_⟩
    simp only [buildTrack]
    rw [hco]
    simp only [ok_bind]
    rw [hts]
    rfl

theorem buildLineTracks_length {lines : List PyVal} {ts : List (List Coordinate)}
    (h : buildLineTracks lines = .ok ts) : ts.length = lines.length := by
  induction lines generalizing ts with
  | nil =>
    simp only [buildLineTracks, Except.ok.injEq] at h
    subst h
    rfl
  | cons line rest ih =>
    simp only [buildLineTracks] at h
    cases hit : pyIter line with
    | error e => rw [hit] at h; simp only [error_bind] at h; cases h
    | ok cl =>
      rw [hit] at h
      simp only [ok_bind] at h
      cases ht : buildTrack cl with
      | error e => rw [ht] at h; simp only [error_bind] at h; cases h
      | ok t =>
        rw [ht] at h
        simp only [ok_bind] at h
        cases hr : buildLineTracks rest with
        | error e => rw [hr] at h; simp only [error_bind] at h; cases h
        | ok ts' =>
          rw [hr] at h
          simp only [ok_bind, pure_eq_ok, Except.ok.injEq] at h
          subst h
          simp [ih hr]

theorem buildLineTracks_mem {lines : List PyVal} {ts : List (List Coordinate)}
    (h : buildLineTracks lines = .ok ts) :
    ∀ cl : List PyVal, PyVal.list cl ∈ lines →
      ∃ t ∈ ts, buildTrack cl = .ok t := by
  induction lines generalizing ts with
  | nil => intro cl hm; simp at hm
  | cons line rest ih =>
    intro cl hm
    simp only [buildLineTracks] at h
    cases hit : pyIter line with
    | error e => rw [hit] at h; simp only [error_bind] at h; cases h
    | ok cl' =>
      rw [hit] at h
      simp only [ok_bind] at h
      cases ht : buildTrack cl' with
      | error e => rw [ht] at h; simp only [error_bind] at h; cases h
      | ok t =>
        rw [ht] at h
        simp only [ok_bind] at h
        cases hr : buildLineTracks rest with
        | error e => rw [hr] at h; simp only [error_bind] at h; cases h
        | ok ts' =>
          rw [hr] at h
          simp only [ok_bind, pure_eq_ok, Except.ok.injEq] at h
          subst h
          rcases List.mem_cons.mp hm with hm | hm
          · subst hm
            simp only [pyIter, Except.ok.injEq] at hit
            subst hit
            exact ⟨t, List.mem_cons_self _ _, ht⟩
          · obtain ⟨t', ht', hb⟩ := ih hr cl hm
            exact ⟨t', List.mem_cons_of_mem _ ht', hb⟩

theorem buildLineTracks_ok_of_all {lines : List PyVal}
    (h : lines.all lineOk = true) : ∃ ts, buildLineTracks lines = .ok ts := by
  induction lines with
  | nil => exact ⟨[], rfl⟩
  | cons line rest ih =>
    simp only [List.all_cons, Bool.and_eq_true] at h
    obtain ⟨hline, hrest⟩ := h
    obtain ⟨cl, hcl⟩ : ∃ cl, line = PyVal.list cl ∧ cl.all coordOk = true := by
      cases line <;> simp_all [lineOk]
    obtain ⟨hl, hall⟩ := hcl
    subst hl
    obtain ⟨t, ht⟩ := buildTrack_ok_of_all hall
    obtain ⟨ts, hts⟩ := ih hrest
    refine ⟨t :: ts, ?_⟩
    simp only [buildLineTracks, pyIter, ok_bind]
    rw [ht]
    simp only [ok_bind]
    rw [hts]
    rfl

/-!
### Lemmas: the feature loop
-/

theorem stepFeature_lineString (tracks : List (List Coordinate))
    {f g ty : PyVal} {cl : List PyVal} {t : List Coordinate}
    (hg : dictGet f "geometry" = .ok g) (hty : dictGet g "type" = .ok ty)
    (hls : ty.eqStr "LineString" = true) (hcs : dictGet g "coordinates" = .ok (.list cl))
    (ht : buildTrack cl = .ok t) :
    stepFeature tracks f = .ok (tracks ++ [t]) := by
  simp [stepFeature, hg, hty, hls, eqStr_ls_not_mls hls, hcs, pyIter, ht,
    ok_bind, error_bind, pure_eq_ok, fmap_ok, fmap_error]

theorem stepFeature_multi (tracks : List (List Coordinate))
    {f g ty : PyVal} {lines : List PyVal} {ts : List (List Coordinate)}
    (hg : dictGet f "geometry" = .ok g) (hty : dictGet g "type" = .ok ty)
    (hnot : ty.eqStr "LineString" = false) (hmls : ty.eqStr "MultiLineString" = true)
    (hcs : dictGet g "coordinates" = .ok (.list lines))
    (hts : buildLineTracks lines = .ok ts) :
    stepFeature tracks f = .ok (tracks ++ ts) := by
  simp [stepFeature, hg, hty, hnot, hmls, hcs, pyIter, hts,
    ok_bind, error_bind, pure_eq_ok, fmap_ok, fmap_error]

theorem stepFeature_skip (tracks : List (List Coordinate))
    {f g ty : PyVal}
    (hg : dictGet f "geometry" = .ok g) (hty : dictGet g "type" = .ok ty)
    (h1 : ty.eqStr "LineString" = false) (h2 : ty.eqStr "MultiLineString" = false) :
    stepFeature tracks f = .ok tracks := by
  simp [stepFeature, hg, hty, h1, h2, ok_bind, error_bind, pure_eq_ok, fmap_ok, fmap_error]

theorem stepFeature_shift (tracks : List (List Coordinate)) (f : PyVal) :
    stepFeature tracks f = (stepFeature [] f).map (fun new => tracks ++ new) := by
  unfold stepFeature
  cases h1 : dictGet f "geometry" with
  | error e => simp [error_bind, map_error]
  | ok g =>
    simp only [ok_bind]
    cases h2 : dictGet g "type" with
    | error e => simp [error_bind, map_error]
    | ok ty =>
      simp only [ok_bind]
      by_cases hls : ty.eqStr "LineString" = true
      · simp only [hls, if_true, eqStr_ls_not_mls hls, Bool.false_eq_true, if_false]
        cases h3 : dictGet g "coordinates" with
        | error e => simp [error_bind, map_error]
        | ok c =>
          simp only [ok_bind]
          cases h4 : pyIter c with
          | error e => simp [error_bind, map_error]
          | ok coords =>
            simp only [ok_bind]
            cases h5 : buildTrack coords with
            | error e => simp [error_bind, map_error]
            | ok track => simp [ok_bind, pure_eq_ok, map_ok]
      · rw [Bool.not_eq_true] at hls
        simp only [hls, Bool.false_eq_true, if_false, pure_eq_ok, ok_bind]
        by_cases hmls : ty.eqStr "MultiLineString" = true
        · simp only [hmls, if_true]
          cases h3 : dictGet g "coordinates" with
          | error e => simp [error_bind, map_error]
          | ok c =>
            simp only [ok_bind]
            cases h4 : pyIter c with
            | error e => simp [error_bind, map_error]
            | ok lines =>
              simp only [ok_bind]
              cases h5 : buildLineTracks lines with
              | error e => simp [error_bind, map_error]
              | ok ts => simp [ok_bind, pure_eq_ok, map_ok]
        · rw [Bool.not_eq_true] at hmls
          simp [hmls, map_ok]

theorem foldFeatures_shift (fs : List PyVal) (tracks : List (List Coordinate)) :
    foldFeatures fs tracks = (foldFeatures fs []).map (fun res => tracks ++ res) := by
  induction fs generalizing tracks with
  | nil => simp [foldFeatures, map_ok]
  | cons f rest ih =>
    simp only [foldFeatures]
    rw [stepFeature_shift tracks f]
    cases hs : stepFeature [] f with
    | error e => simp [error_bind, map_error]
    | ok new =>
      simp only [map_ok, ok_bind]
      rw [ih (tracks ++ new), ih new]
      cases hr : foldFeatures rest [] with
      | error e => simp [map_error, error_bind]
      | ok res => simp [map_ok, ok_bind, List.append_assoc]

theorem foldFeatures_ok_inv {fs : List PyVal} {res : List (List Coordinate)}
    (h : foldFeatures fs [] = .ok res) :
    res = (fs.map featureTracks).flatten ∧
      ∀ f ∈ fs, stepFeature [] f = .ok (featureTracks f) := by
  induction fs generalizing res with
  | nil =>
    simp only [foldFeatures, Except.ok.injEq] at h
    subst h
    simp
  | cons f rest ih =>
    simp only [foldFeatures] at h
    cases hs : stepFeature [] f with
    | error e => rw [hs] at h; simp only [error_bind] at h; cases h
    | ok new =>
      rw [hs] at h
      simp only [ok_bind] at h
      rw [foldFeatures_shift rest new] at h
      cases hr : foldFeatures rest [] with
      | error e => rw [hr] at h; simp only [map_error] at h; cases h
      | ok res' =>
        rw [hr] at h
        simp only [map_ok, Except.ok.injEq] at h
        subst h
        obtain ⟨hres, hall⟩ := ih hr
        subst hres
        constructor
        · simp only [List.map_cons, List.flatten_cons, featureTracks, hs]
        · intro f' hf'
          rcases List.mem_cons.mp hf' with hf' | hf'
          · subst hf'
            rw [hs]
            simp only [featureTracks, hs]
          · exact hall f' hf'

theorem featureOk_inv {f : PyVal} (h : featureOk f = true) :
    ∃ g ty, dictGet f "geometry" = .ok g ∧ dictGet g "type" = .ok ty ∧
      ((ty.eqStr "LineString" = true ∧
          ∃ cl, dictGet g "coordinates" = .ok (.list cl) ∧ cl.all coordOk = true) ∨
        (ty.eqStr "LineString" = false ∧ ty.eqStr "MultiLineString" = true ∧
          ∃ lines, dictGet g "coordinates" = .ok (.list lines) ∧
            lines.all lineOk = true) ∨
        (ty.eqStr "LineString" = false ∧ ty.eqStr "MultiLineString" = false)) := by
  unfold featureOk at h
  split at h
  next g hg =>
    split at h
    next ty hty =>
      by_cases hls : ty.eqStr "LineString" = true
      · rw [if_pos hls] at h
        split at h
        next c hc =>
          obtain ⟨cl, rfl, hcl⟩ : ∃ cl, c = PyVal.list cl ∧ cl.all coordOk = true := by
            cases c <;> simp_all [lineOk]
          exact ⟨g, ty, hg, hty, Or.inl ⟨hls, cl, hc, hcl⟩⟩
        next _ _ => cases h
      · rw [if_neg hls] at h
        rw [Bool.not_eq_true] at hls
        by_cases hmls : ty.eqStr "MultiLineString" = true
        · rw [if_pos hmls] at h
          split at h
          next lines hc =>
            exact ⟨g, ty, hg, hty, Or.inr (Or.inl ⟨hls, hmls, lines, hc, h⟩)⟩
          next _ hc => cases h
        · rw [Bool.not_eq_true] at hmls
          exact ⟨g, ty, hg, hty, Or.inr (Or.inr ⟨hls, hmls⟩)⟩
    next _ _ => cases h
  next _ _ => cases h

theorem featureOk_step {f : PyVal} (h : featureOk f = true) :
    ∃ new, stepFeature [] f = .ok new := by
  obtain ⟨g, ty, hg, hty, hcase⟩ := featureOk_inv h
  rcases hcase with ⟨hls, cl, hcs, hcl⟩ | ⟨hls, hmls, lines, hcs, hlines⟩ | ⟨hls, hmls⟩
  · obtain ⟨t, ht⟩ := buildTrack_ok_of_all hcl
    exact ⟨[] ++ [t], stepFeature_lineString [] hg hty hls hcs ht⟩
  · obtain ⟨ts, hts⟩ := buildLineTracks_ok_of_all hlines
    exact ⟨[] ++ ts, stepFeature_multi [] hg hty hls hmls hcs hts⟩
  · exact ⟨[], stepFeature_skip [] hg hty hls hmls⟩

theorem foldFeatures_ok_of {fs : List PyVal}
    (hall : ∀ f ∈ fs, featureOk f = true) :
    foldFeatures fs [] = .ok ((fs.map featureTracks).flatten) := by
  induction fs with
  | nil => simp [foldFeatures]
  | cons f rest ih =>
    obtain ⟨new, hnew⟩ := featureOk_step (hall f (List.mem_cons_self _ _))
    have hrest := ih (fun g hg => hall g (List.mem_cons_of_mem _ hg))
    simp only [foldFeatures]
    rw [hnew]
    simp only [ok_bind]
    rw [foldFeatures_shift rest new, hrest]
    simp only [map_ok, List.map_cons, List.flatten_cons, featureTracks, hnew]

theorem stepFeature_lineString_error (tracks : List (List Coordinate))
    {f g ty : PyVal} {cl : List PyVal} {e : PyError}
    (hg : dictGet f "geometry" = .ok g) (hty : dictGet g "type" = .ok ty)
    (hls : ty.eqStr "LineString" = true) (hcs : dictGet g "coordinates" = .ok (.list cl))
    (ht : buildTrack cl = .error e) :
    stepFeature tracks f = .error e := by
  simp [stepFeature, hg, hty, hls, hcs, pyIter, ht,
    ok_bind, error_bind, pure_eq_ok, fmap_ok, fmap_error]

theorem stepFeature_multi_error (tracks : List (List Coordinate))
    {f g ty : PyVal} {lines : List PyVal} {e : PyError}
    (hg : dictGet f "geometry" = .ok g) (hty : dictGet g "type" = .ok ty)
    (hnot : ty.eqStr "LineString" = false) (hmls : ty.eqStr "MultiLineString" = true)
    (hcs : dictGet g "coordinates" = .ok (.list lines))
    (hts : buildLineTracks lines = .error e) :
    stepFeature tracks f = .error e := by
  simp [stepFeature, hg, hty, hnot, hmls, hcs, pyIter, hts,
    ok_bind, error_bind, pure_eq_ok, fmap_ok, fmap_error]

theorem featureTracks_of_step {f : PyVal} {new : List (List Coordinate)}
    (h : stepFeature [] f = .ok new) : featureTracks f = new := by
  simp [featureTracks, h]

theorem featureTracks_length {f : PyVal} (h : featureOk f = true) :
    (featureTracks f).length = specTrackCount f := by
  obtain ⟨g, ty, hg, hty, hcase⟩ := featureOk_inv h
  rcases hcase with ⟨hls, cl, hcs, hcl⟩ | ⟨hls, hmls, lines, hcs, hlines⟩ | ⟨hls, hmls⟩
  · obtain ⟨t, ht⟩ := buildTrack_ok_of_all hcl
    rw [featureTracks_of_step (stepFeature_lineString [] hg hty hls hcs ht)]
    simp [specTrackCount, hg, hty, hls]
  · obtain ⟨ts, hts⟩ := buildLineTracks_ok_of_all hlines
    rw [featureTracks_of_step (stepFeature_multi [] hg hty hls hmls hcs hts)]
    simp [specTrackCount, hg, hty, hls, hmls, hcs, buildLineTracks_length hts]
  · rw [featureTracks_of_step (stepFeature_skip [] hg hty hls hmls)]
    simp [specTrackCount, hg, hty, hls, hmls]

theorem extractTracks_eq_fold {lineData : PyVal} {fs : List PyVal}
    (hfeat : dictGet lineData "features" = .ok (.list fs)) :
    extractTracks lineData = foldFeatures fs [] := by
  unfold extractTracks
  rw [hfeat]
  simp only [ok_bind, pyIter]

theorem extractTracks_empty_features {ld : PyVal}
    (h : dictGet ld "features" = .ok (.list [])) : extractTracks ld = .ok [] := by
  rw [extractTracks_eq_fold h]
  rfl

/-!
### Lemmas: the waypoint-count logging
-/

theorem waypointLogCount_empty {ld : PyVal}
    (h : dictGet ld "features" = .ok (.list [])) :
    waypointLogCount ld = .error .indexError := by
  unfold waypointLogCount
  rw [h]
  rfl

theorem waypointLogCount_ok_inv {ld : PyVal} {n : Nat}
    (h : waypointLogCount ld = .ok n) :
    ∃ f rest g cs, dictGet ld "features" = .ok (.list (f :: rest)) ∧
      dictGet f "geometry" = .ok g ∧ dictGet g "coordinates" = .ok cs := by
  unfold waypointLogCount at h
  cases h1 : dictGet ld "features" with
  | error e => rw [h1] at h; simp only [error_bind] at h; cases h
  | ok fv =>
    rw [h1] at h
    simp only [ok_bind] at h
    cases h2 : listGet fv 0 with
    | error e => rw [h2] at h; simp only [error_bind] at h; cases h
    | ok f0 =>
      rw [h2] at h
      simp only [ok_bind] at h
      cases h3 : dictGet f0 "geometry" with
      | error e => rw [h3] at h; simp only [error_bind] at h; cases h
      | ok g =>
        rw [h3] at h
        simp only [ok_bind] at h
        cases h4 : dictGet g "coordinates" with
        | error e =>
          rw [show pyLen (dictGet g "coordinates") = .error e by
            rw [h4]; rfl] at h
          cases h
        | ok cs =>
          cases fv with
          | str s =>
            simp only [listGet] at h2
            cases hsd : s.data.get? 0 with
            | none => rw [hsd] at h2; cases h2
            | some c =>
              rw [hsd] at h2
              injection h2 with h2'
              subst h2'
              simp only [dictGet] at h3
              cases h3
          | num m => simp only [listGet] at h2; cases h2
          | dict kvs => simp only [listGet] at h2; cases h2
          | list xs =>
            simp only [listGet] at h2
            cases hx : xs.get? 0 with
            | none => rw [hx] at h2; cases h2
            | some v =>
              rw [hx] at h2
              injection h2 with h2'
              subst h2'
              cases xs with
              | nil => simp at hx
              | cons f0' rest =>
                simp only [List.get?_cons_zero, Option.some.injEq] at hx
                subst hx
                exact ⟨f0', rest, g, cs, rfl, h3, h4⟩

theorem getPageName_cases (js : List Char) :
    (∃ nm, getPageName js = .ok nm) ∨ getPageName js = .error .indexError := by
  cases h : findOcc documentTitleMarker js with
  | none => exact Or.inr (getPageName_no_marker h)
  | some p => exact Or.inl ⟨_, getPageName_of_occ h⟩

/-!
### Lemmas: the GPX writer
-/

theorem segFold_points (track : List Coordinate) (seg : GPXTrackSegment) :
    track.foldl
      (fun seg coordinate =>
        { seg with
          points := seg.points ++
            [{ latitude := coordinate.latitude, longitude := coordinate.longitude }] })
      seg =
    { points := seg.points ++
        track.map (fun c => { latitude := c.latitude, longitude := c.longitude }) } := by
  induction track generalizing seg with
  | nil => cases seg; simp
  | cons c cs ih => simp [List.foldl_cons, ih]

theorem convertToGpx_eq (tracks : List (List Coordinate)) :
    convertToGpx tracks =
      { tracks := [{ segments := tracks.map (fun track =>
          { points := track.map
              (fun c => { latitude := c.latitude, longitude := c.longitude }) }) }] } := by
  unfold convertToGpx
  have main : ∀ (ts : List (List Coordinate)) (gt : GPXTrack),
      ts.foldl
        (fun gpxTrack track =>
          { gpxTrack with
            segments := gpxTrack.segments ++
              [track.foldl
                (fun seg coordinate =>
                  { seg with
                    points := seg.points ++
                      [{ latitude := coordinate.latitude,
                         longitude := coordinate.longitude }] })
                { points := [] }] })
        gt =
      { segments := gt.segments ++ ts.map (fun track =>
          { points := track.map
              (fun c => { latitude := c.latitude, longitude := c.longitude }) }) } := by
    intro ts
    induction ts with
    | nil => intro gt; cases gt; simp
    | cons t rest ih =>
      intro gt
      rw [List.foldl_cons, ih]
      simp [segFold_points]
  simpa using main tracks { segments := [] }

/-!
### Claim theorems
-/

/-- C3: for every `TrackCollection`, `__convert_to_gpx` builds a document
with exactly one top-level track; that track has one segment per input
track, and segment `i` carries exactly the coordinates of track `i`, in
order, each point's latitude and longitude taken from the corresponding
`Coordinate`'s fields. -/
theorem gpx_writer_structure (tracks : List (List Coordinate)) :
    (convertToGpx tracks).tracks.length = 1 ∧
    ∀ gt ∈ (convertToGpx tracks).tracks,
      gt.segments.length = tracks.length ∧
      ∀ (i : Nat) (t : List Coordinate), tracks.get? i = some t →
        ∃ seg, gt.segments.get? i = some seg ∧ seg.points.length = t.length ∧
          ∀ (j : Nat) (c : Coordinate), t.get? j = some c →
            ∃ p, seg.points.get? j = some p ∧
              p.latitude = c.latitude ∧ p.longitude = c.longitude := by
  rw [convertToGpx_eq]
  refine ⟨rfl, ?_⟩
  intro gt hgt
  simp only [List.mem_singleton] at hgt
  subst hgt
  refine ⟨by simp, ?_⟩
  intro i t ht
  refine ⟨{ points := t.map (fun c => { latitude := c.latitude, longitude := c.longitude }) },
    ?_, by simp, ?_⟩
  · show (tracks.map _).get? i = _
    rw [List.get?_map, ht]
    rfl
  · intro j c hc
    refine ⟨{ latitude := c.latitude, longitude := c.longitude }, ?_, rfl, rfl⟩
    show (t.map _).get? j = _
    rw [List.get?_map, hc]
    rfl

/-- Witness for C3 at a singleton track collection. -/
theorem gpx_writer_structure_witness :
    ∃ gt seg, (convertToGpx demoTracks).tracks.get? 0 = some gt ∧
      gt.segments.get? 0 = some seg ∧ seg.points.length = 1 ∧
      seg.points.get? 0 =
        some { latitude := PyVal.num 20, longitude := PyVal.num 10 } := by
  obtain ⟨h1, h2⟩ := gpx_writer_structure demoTracks
  cases hgt : (convertToGpx demoTracks).tracks with
  | nil => rw [hgt] at h1; cases h1
  | cons gt rest =>
    have hmem : gt ∈ (convertToGpx demoTracks).tracks := by
      rw [hgt]; exact List.mem_cons_self _ _
    obtain ⟨hlen, hcorr⟩ := h2 gt hmem
    obtain ⟨seg, hseg, hslen, hpts⟩ :=
      hcorr 0 [{ latitude := PyVal.num 20, longitude := PyVal.num 10 }] rfl
    obtain ⟨p, hp, hplat, hplon⟩ :=
      hpts 0 { latitude := PyVal.num 20, longitude := PyVal.num 10 } rfl
    refine ⟨gt, seg, rfl, hseg, hslen, ?_⟩
    rw [hp]
    cases p
    simp only at hplat hplon
    rw [hplat, hplon]

/-- C7 (amended): for a page title containing no path separator, the file
writer targets `<title>.gpx` inside the script's own directory, opened in
mode `"w"` (create or truncate: an existing file is overwritten) with
UTF-8 encoding.  A title containing a separator changes the directory
instead (see the counterexample). -/
theorem save_gpx_in_script_dir (scriptDir pageName : List Char) (gpx : GPX)
    (hdir1 : scriptDir ≠ []) (hdir2 : scriptDir.getLast? ≠ some '/')
    (hname : '/' ∉ pageName) :
    saveGpxToFile scriptDir pageName gpx =
      { path := scriptDir ++ '/' :: (pageName ++ ".gpx".toList),
        mode := "w".toList, encoding := "utf-8".toList, content := gpx } ∧
      '/' ∉ (pageName ++ ".gpx".toList) := by
  have hsep : '/' ∉ (pageName ++ ".gpx".toList) := by
    intro hmem
    rcases List.mem_append.mp hmem with hmem | hmem
    · exact hname hmem
    · revert hmem; decide
  constructor
  · unfold saveGpxToFile osPathJoin
    dsimp only
    rw [if_neg, if_neg]
    · rintro (h | h)
      · exact hdir1 h
      · exact hdir2 h
    · intro h
      cases pageName with
      | nil => exact absurd h (by decide)
      | cons a as =>
        simp only [List.cons_append, List.head?_cons, Option.some.injEq] at h
        exact hname (h ▸ List.mem_cons_self a as)
  · exact hsep

/-- Witness for C7 at the title `TestRoute`. -/
theorem save_gpx_in_script_dir_witness :
    saveGpxToFile "/app".toList "TestRoute".toList demoGpx =
      { path := "/app".toList ++ '/' :: ("TestRoute".toList ++ ".gpx".toList),
        mode := "w".toList, encoding := "utf-8".toList, content := demoGpx } ∧
      '/' ∉ ("TestRoute".toList ++ ".gpx".toList) :=
  save_gpx_in_script_dir "/app".toList "TestRoute".toList demoGpx
    (by decide) (by decide) (by decide)

/-- C7 counterexample: with the adversarial title `/evil` the file is
written to `/evil.gpx`, which is not `<title>.gpx` inside the script's
directory `/app` (it is not even below `/app`). -/
theorem save_gpx_escapes_counterexample :
    (saveGpxToFile "/app".toList "/evil".toList demoGpx).path = "/evil.gpx".toList ∧
    (saveGpxToFile "/app".toList "/evil".toList demoGpx).path ≠
      "/app".toList ++ '/' :: ("/evil".toList ++ ".gpx".toList) ∧
    (saveGpxToFile "/app".toList "/evil".toList demoGpx).path.take 4 ≠ "/app".toList := by
  refine ⟨by decide, by decide, by decide⟩

/-- C8: a zero-length response makes `__parse_web_sources` raise the
empty-response `ValueError` before any extraction, and no `FileWrite`
results; more generally every extractor or track-builder error aborts
`parse` with that error, so the file-write stage is never reached on an
error path. -/
theorem empty_response_aborts (pjs : List Char → Except PyError PyVal)
    (scriptDir page : List Char) :
    (page.length = 0 →
      parseWebSources pjs page = .error (.valueError "No webpage sources were retrieved!") ∧
      parse pjs scriptDir page = .error (.valueError "No webpage sources were retrieved!")) ∧
    (∀ e, parseWebSources pjs page = .error e → parse pjs scriptDir page = .error e) ∧
    (∀ nm ld e, parseWebSources pjs page = .ok (nm, ld) → extractTracks ld = .error e →
      parse pjs scriptDir page = .error e) := by
  refine ⟨fun h => ?_, fun e he => parse_error_of_sources he, fun nm ld e hok hex => ?_⟩
  · exact ⟨parseWebSources_error_script (getScriptSources_empty h),
      parse_error_of_sources (parseWebSources_error_script (getScriptSources_empty h))⟩
  · unfold parse
    rw [hok]
    simp only [ok_bind]
    rw [show extractTracks (nm, ld).2 = Except.error e from hex]
    rfl

/-- Witness for C8 at the empty page. -/
theorem empty_response_aborts_witness :
    parse (constParser demoLineData) "/app".toList [] =
      .error (.valueError "No webpage sources were retrieved!") :=
  ((empty_response_aborts (constParser demoLineData) "/app".toList []).1 rfl).2

/-- C10: a script text without `var pointData = ` makes the
point-of-interest extraction raise an `IndexError`, although the point
data never reaches the GPX output; conversely a successful run implies
the script text contained the marker. -/
theorem pointData_marker_required (pjs : List Char → Except PyError PyVal)
    (scriptDir page js : List Char) :
    (strContains js pointDataMarker = false →
      getPointDataRaw js = .error .indexError) ∧
    (∀ fw, parse pjs scriptDir page = .ok fw →
      ∃ js', getScriptSources page = .ok js' ∧
        strContains js' pointDataMarker = true) := by
  constructor
  · intro h
    exact getPointDataRaw_no_marker (strContains_false_iff.mp h)
  · intro fw hfw
    obtain ⟨name, ld, hsrc, -⟩ := parse_ok_inv hfw
    obtain ⟨js', h1, -, -, -, praw, h6, -⟩ := parseWebSources_ok_inv hsrc
    exact ⟨js', h1, getPointDataRaw_ok h6⟩

set_option maxRecDepth 8192 in
/-- Witness for C10: the marker-free script text `abc` fails, and the
successful demo run implies the demo page's script text has the marker. -/
theorem pointData_marker_required_witness :
    getPointDataRaw "abc".toList = .error .indexError ∧
    ∃ js', getScriptSources demoPage = .ok js' ∧
      strContains js' pointDataMarker = true := by
  obtain ⟨h1, h2⟩ :=
    pointData_marker_required (constParser demoLineData) "/app".toList demoPage "abc".toList
  exact ⟨h1 (by decide), h2 _ rfl⟩

/-- C9: a parsed `lineData` whose `features` list is empty makes
`__parse_web_sources` raise an `IndexError` inside the waypoint-count
logging (`features[0]`), although the track builder itself accepts an
empty feature list; and a successful `__parse_web_sources` run implies
the first feature exists and has the `geometry` and `coordinates` keys. -/
theorem waypoint_log_requires_feature (pjs : List Char → Except PyError PyVal)
    (page js name raw : List Char) (ld : PyVal) :
    (getScriptSources page = .ok js → getPageName js = .ok name →
      getLineDataRaw js = .ok raw → pjs raw = .ok ld →
      dictGet ld "features" = .ok (.list []) →
      parseWebSources pjs page = .error .indexError ∧ extractTracks ld = .ok []) ∧
    (∀ nm, parseWebSources pjs page = .ok (nm, ld) →
      ∃ f rest g cs, dictGet ld "features" = .ok (.list (f :: rest)) ∧
        dictGet f "geometry" = .ok g ∧ dictGet g "coordinates" = .ok cs) := by
  constructor
  · intro hjs hname hraw hld hempty
    exact ⟨parseWebSources_error_waypointLog hjs hname hraw hld
        (waypointLogCount_empty hempty),
      extractTracks_empty_features hempty⟩
  · intro nm hok
    obtain ⟨js', -, -, -, ⟨n, hcount⟩, -⟩ := parseWebSources_ok_inv hok
    exact waypointLogCount_ok_inv hcount

set_option maxRecDepth 8192 in
/-- Witness for C9: the demo page with a `chompjs` stand-in returning an
empty feature list. -/
theorem waypoint_log_requires_feature_witness :
    parseWebSources (constParser emptyFeaturesDict) demoPage = .error .indexError ∧
    extractTracks emptyFeaturesDict = .ok [] := by
  obtain ⟨h1, -⟩ := waypoint_log_requires_feature (constParser emptyFeaturesDict)
    demoPage demoScriptText "Trip".toList "\x7b\x7d;".toList emptyFeaturesDict
  exact h1 rfl rfl rfl rfl rfl

/-- C4 counterexample: on a page where the opening marker occurs again
before the first closing marker, the code's script text (`['B']`) is a
strict prefix of the claimed substring strictly between the first opening
marker and the first subsequent closing marker. -/
theorem script_text_counterexample :
    getScriptSources c4Page = .ok ['B'] ∧
    specScriptText c4Page = some ('B' :: javascriptStartMarker ++ ['C']) ∧
    ('B' :: javascriptStartMarker ++ ['C'] : List Char) ≠ ['B'] :=
  ⟨rfl, rfl, by decide⟩

/-- C4 (amended): the script text is the text after the first opening
marker, truncated at the next occurrence of the opening marker (if any)
and then at the first occurrence of the closing marker in what remains;
when no second opening marker intervenes this is exactly the substring
strictly between the first opening marker and the first subsequent
closing marker. -/
theorem script_text_amended (page : List Char) (p : Nat)
    (hp : findOcc javascriptStartMarker page = some p)
    (hclose : strContains page javascriptEndMarker = true) :
    getScriptSources page = .ok (takeUpTo javascriptEndMarker
      (takeUpTo javascriptStartMarker
        (page.drop (p + javascriptStartMarker.length)))) :=
  getScriptSources_of_occ hp hclose

set_option maxRecDepth 8192 in
/-- Witness for C4 at the two-opening-marker page. -/
theorem script_text_amended_witness :
    getScriptSources c4Page = .ok (takeUpTo javascriptEndMarker
      (takeUpTo javascriptStartMarker
        (c4Page.drop (0 + javascriptStartMarker.length)))) :=
  script_text_amended c4Page 0 (by decide) (by decide)

/-- C5 counterexample: the empty page text does not contain the opening
marker, yet the extractor fails with the empty-response `ValueError`, not
with the missing-opening-marker `ValueError`. -/
theorem missing_marker_counterexample :
    parseWebSources (constParser demoLineData) [] =
      .error (.valueError "No webpage sources were retrieved!") ∧
    strContains [] javascriptStartMarker = false ∧
    PyError.valueError "No webpage sources were retrieved!" ≠
      PyError.valueError "No javascript opening tag was found in webpage sources!" :=
  ⟨parseWebSources_error_script (getScriptSources_empty rfl), by decide, by decide⟩

/-- C5 (amended): on a nonempty page without the opening marker the run
fails with the missing-opening-tag `ValueError`; with the opening marker
but no closing marker, with the missing-closing-tag `ValueError`; and
when the script text lacks `document.title = ` or `var lineData = `, with
the `IndexError` of the failed `[1]` subscript (the spec's
`MissingAssignmentError`); in every case `parse` stops with that error. -/
theorem missing_marker_errors (pjs : List Char → Except PyError PyVal)
    (scriptDir page js : List Char) :
    (page ≠ [] → strContains page javascriptStartMarker = false →
      parse pjs scriptDir page =
        .error (.valueError "No javascript opening tag was found in webpage sources!")) ∧
    (strContains page javascriptStartMarker = true →
      strContains page javascriptEndMarker = false →
      parse pjs scriptDir page =
        .error (.valueError "No javascript closing tag was found in webpage sources!")) ∧
    (getScriptSources page = .ok js → strContains js documentTitleMarker = false →
      parse pjs scriptDir page = .error .indexError) ∧
    (getScriptSources page = .ok js → strContains js lineDataMarker = false →
      parse pjs scriptDir page = .error .indexError) := by
  refine ⟨fun hne hopen => ?_, fun hopen hclose => ?_,
    fun hjs htitle => ?_, fun hjs hline => ?_⟩
  · have hlen : ¬ page.length = 0 := by
      intro h
      exact hne (List.length_eq_zero.mp h)
    exact parse_error_of_sources
      (parseWebSources_error_script (getScriptSources_no_open hlen hopen))
  · exact parse_error_of_sources
      (parseWebSources_error_script (getScriptSources_no_close hopen hclose))
  · exact parse_error_of_sources (parseWebSources_error_pageName hjs
      (getPageName_no_marker (strContains_false_iff.mp htitle)))
  · rcases getPageName_cases js with ⟨nm, hnm⟩ | hnm
    · exact parse_error_of_sources (parseWebSources_error_lineData hjs hnm
        (getLineDataRaw_no_marker (strContains_false_iff.mp hline)))
    · exact parse_error_of_sources (parseWebSources_error_pageName hjs hnm)

set_option maxRecDepth 8192 in
/-- Witness for C5 at four concrete pages, one per failure scenario. -/
theorem missing_marker_errors_witness :
    parse (constParser demoLineData) "/app".toList pageNoScript =
      .error (.valueError "No javascript opening tag was found in webpage sources!") ∧
    parse (constParser demoLineData) "/app".toList pageOnlyOpen =
      .error (.valueError "No javascript closing tag was found in webpage sources!") ∧
    parse (constParser demoLineData) "/app".toList pageNoTitle = .error .indexError ∧
    parse (constParser demoLineData) "/app".toList pageNoLineData = .error .indexError := by
  refine ⟨?_, ?_, ?_, ?_⟩
  · exact (missing_marker_errors (constParser demoLineData) "/app".toList
      pageNoScript []).1 (by decide) (by decide)
  · exact (missing_marker_errors (constParser demoLineData) "/app".toList
      pageOnlyOpen []).2.1 (by decide) (by decide)
  · exact (missing_marker_errors (constParser demoLineData) "/app".toList
      pageNoTitle "abc".toList).2.2.1 rfl (by decide)
  · exact (missing_marker_errors (constParser demoLineData) "/app".toList
      pageNoLineData (documentTitleMarker ++ quoteChar :: "T".toList ++
        quoteChar :: ";".toList)).2.2.2 rfl (by decide)

/-- C6 counterexample: for the title value `''x''` the code strips all
leading and trailing quotes and yields `x`, not the `'x'` predicted by
stripping a single quote from each end. -/
theorem title_strip_counterexample :
    getPageName c6Js = .ok ['x'] ∧
    findOcc documentTitleMarker c6Js = some 0 ∧
    stripOneQuote (takeUpTo [';'] (c6Js.drop (0 + documentTitleMarker.length))) =
      [quoteChar, 'x', quoteChar] ∧
    (['x'] : List Char) ≠ [quoteChar, 'x', quoteChar] :=
  ⟨rfl, by decide, by decide, by decide⟩

/-- C6 (amended): the page title is the text after the first
`document.title = ` marker, truncated at the next occurrence of that
marker (if any) and then at the first `;` in what remains, with ALL
leading and trailing `'` characters stripped (not just one from each
end). -/
theorem page_title_amended (js : List Char) (p : Nat)
    (hp : findOcc documentTitleMarker js = some p) :
    getPageName js = .ok (pyStrip quoteChar (takeUpTo [';']
      (takeUpTo documentTitleMarker (js.drop (p + documentTitleMarker.length))))) :=
  getPageName_of_occ hp

/-- Witness for C6 at the doubly-quoted title. -/
theorem page_title_amended_witness :
    getPageName c6Js = .ok (pyStrip quoteChar (takeUpTo [';']
      (takeUpTo documentTitleMarker
        (c6Js.drop (0 + documentTitleMarker.length))))) :=
  page_title_amended c6Js 0 (by decide)

/-- C1: whenever track extraction succeeds, every coordinate pair
`[lon, lat]` of a `LineString` feature's coordinates (or of an inner line
of a `MultiLineString` feature) yields, in some extracted track, the
`Coordinate` with `latitude = lat` and `longitude = lon` — the component
order is swapped relative to the input. -/
theorem coordinate_swap (lineData : PyVal) (fs : List PyVal)
    (tracks : List (List Coordinate)) (f g lon lat : PyVal)
    (hfeat : dictGet lineData "features" = .ok (.list fs))
    (hrun : extractTracks lineData = .ok tracks)
    (hf : f ∈ fs) (hg : dictGet f "geometry" = .ok g)
    (hshape : (dictGet g "type" = .ok (.str "LineString") ∧
        ∃ cl, dictGet g "coordinates" = .ok (.list cl) ∧ PyVal.list [lon, lat] ∈ cl) ∨
      (dictGet g "type" = .ok (.str "MultiLineString") ∧
        ∃ lines cl, dictGet g "coordinates" = .ok (.list lines) ∧
          PyVal.list cl ∈ lines ∧ PyVal.list [lon, lat] ∈ cl)) :
    ∃ t ∈ tracks, Coordinate.mk lat lon ∈ t := by
  rw [extractTracks_eq_fold hfeat] at hrun
  obtain ⟨hres, hall⟩ := foldFeatures_ok_inv hrun
  subst hres
  have hstep := hall f hf
  rcases hshape with ⟨hty, cl, hcs, hmem⟩ | ⟨hty, lines, cl, hcs, hlmem, hmem⟩
  · cases ht : buildTrack cl with
    | error e =>
      rw [stepFeature_lineString_error [] hg hty (by decide) hcs ht] at hstep
      cases hstep
    | ok t =>
      rw [stepFeature_lineString [] hg hty (by decide) hcs ht] at hstep
      injection hstep with hft
      refine ⟨t, ?_, buildTrack_mem ht lon lat hmem⟩
      rw [List.mem_flatten]
      refine ⟨featureTracks f, List.mem_map_of_mem _ hf, ?_⟩
      rw [← hft]
      simp
  · cases hts : buildLineTracks lines with
    | error e =>
      rw [stepFeature_multi_error [] hg hty (by decide) (by decide) hcs hts] at hstep
      cases hstep
    | ok ts =>
      rw [stepFeature_multi [] hg hty (by decide) (by decide) hcs hts] at hstep
      injection hstep with hft
      obtain ⟨t, htmem, ht⟩ := buildLineTracks_mem hts cl hlmem
      refine ⟨t, ?_, buildTrack_mem ht lon lat hmem⟩
      rw [List.mem_flatten]
      refine ⟨featureTracks f, List.mem_map_of_mem _ hf, ?_⟩
      rw [← hft]
      simpa using htmem

set_option maxRecDepth 8192 in
/-- Witness for C1: the pair `[3, 4]` of the demo `MultiLineString`'s
second inner line appears as `(latitude 4, longitude 3)`. -/
theorem coordinate_swap_witness :
    Coordinate.mk (PyVal.num 4) (PyVal.num 3) ∈ demoExtracted.flatten := by
  obtain ⟨t, ht, hc⟩ := coordinate_swap demoLineData demoFeatures demoExtracted
    demoMulti
    (PyVal.dict [("type", .str "MultiLineString"),
      ("coordinates", .list
        [.list [.list [.num 1, .num 2]],
         .list [.list [.num 3, .num 4], .list [.num 5, .num 6]]])])
    (PyVal.num 3) (PyVal.num 4) rfl rfl
    (by unfold demoFeatures
        exact List.mem_cons_of_mem _ (List.mem_cons_of_mem _ (List.mem_cons_self _ _)))
    rfl
    (Or.inr ⟨rfl,
      [.list [.list [.num 1, .num 2]],
       .list [.list [.num 3, .num 4], .list [.num 5, .num 6]]],
      [.list [.num 3, .num 4], .list [.num 5, .num 6]], rfl,
      List.mem_cons_of_mem _ (List.mem_cons_self _ _),
      List.mem_cons_self _ _⟩)
  exact List.mem_flatten.mpr ⟨t, ht, hc⟩

/-- C2: for a well-formed feature collection the track builder succeeds;
the number of extracted tracks is one per `LineString` plus one per inner
line of each `MultiLineString` (features of any other geometry type
contribute zero tracks and raise no error); and each input line
corresponds to an output track with the same number of coordinates, in
the same order. -/
theorem track_counts (lineData : PyVal) (fs : List PyVal)
    (hfeat : dictGet lineData "features" = .ok (.list fs))
    (hok : ∀ f ∈ fs, featureOk f = true) :
    ∃ tracks, extractTracks lineData = .ok tracks ∧
      tracks.length = (fs.map specTrackCount).sum ∧
      ∀ f ∈ fs, ∀ g, dictGet f "geometry" = .ok g →
        ∀ cl : List PyVal,
          ((dictGet g "type" = .ok (.str "LineString") ∧
              dictGet g "coordinates" = .ok (.list cl)) ∨
            (dictGet g "type" = .ok (.str "MultiLineString") ∧
              ∃ lines, dictGet g "coordinates" = .ok (.list lines) ∧
                PyVal.list cl ∈ lines)) →
          ∃ t ∈ tracks, t.length = cl.length ∧
            ∀ (i : Nat) (lon lat : PyVal) (rest : List PyVal),
              cl.get? i = some (.list (lon :: lat :: rest)) →
              t.get? i = some ⟨lat, lon⟩ := by
  have hfold := foldFeatures_ok_of hok
  refine ⟨(fs.map featureTracks).flatten, ?_, ?_, ?_⟩
  · rw [extractTracks_eq_fold hfeat]
    exact hfold
  · rw [List.length_flatten, List.map_map]
    congr 1
    exact List.map_congr_left (fun f hf => featureTracks_length (hok f hf))
  · intro f hf g hg cl hshape
    have hstep : stepFeature [] f = .ok (featureTracks f) := by
      obtain ⟨new, hnew⟩ := featureOk_step (hok f hf)
      rw [hnew, featureTracks_of_step hnew]
    obtain ⟨gg, ty, hg', hty', hcase⟩ := featureOk_inv (hok f hf)
    rw [hg] at hg'
    injection hg' with hgg
    subst hgg
    rcases hshape with ⟨hty, hcs⟩ | ⟨hty, lines, hcs, hlmem⟩
    · rcases hcase with ⟨hls, cl', hcs', hcl⟩ | ⟨hls, -, -⟩ | ⟨hls, -⟩
      · rw [hcs] at hcs'
        injection hcs' with h'
        injection h' with h''
        subst h''
        obtain ⟨t, ht⟩ := buildTrack_ok_of_all hcl
        rw [stepFeature_lineString [] hg hty (by decide) hcs ht] at hstep
        injection hstep with hft
        refine ⟨t, ?_, buildTrack_length ht, buildTrack_get ht⟩
        rw [List.mem_flatten]
        refine ⟨featureTracks f, List.mem_map_of_mem _ hf, ?_⟩
        rw [← hft]
        simp
      · rw [hty] at hty'
        injection hty' with h'
        subst h'
        simp [PyVal.eqStr] at hls
      · rw [hty] at hty'
        injection hty' with h'
        subst h'
        simp [PyVal.eqStr] at hls
    · rcases hcase with ⟨hls, -, -, -⟩ | ⟨hls, hmls, lines', hcs', hlines⟩ | ⟨-, hmls⟩
      · rw [hty] at hty'
        injection hty' with h'
        subst h'
        simp [PyVal.eqStr] at hls
      · rw [hcs] at hcs'
        injection hcs' with h'
        injection h' with h''
        subst h''
        obtain ⟨ts, hts⟩ := buildLineTracks_ok_of_all hlines
        rw [stepFeature_multi [] hg hty (by decide) (by decide) hcs hts] at hstep
        injection hstep with hft
        obtain ⟨t, htmem, ht⟩ := buildLineTracks_mem hts cl hlmem
        refine ⟨t, ?_, buildTrack_length ht, buildTrack_get ht⟩
        rw [List.mem_flatten]
        refine ⟨featureTracks f, List.mem_map_of_mem _ hf, ?_⟩
        rw [← hft]
        simpa using htmem
      · rw [hty] at hty'
        injection hty' with h'
        subst h'
        simp [PyVal.eqStr] at hmls

set_option maxRecDepth 8192 in
/-- Witness for C2 at the demo collection: one `LineString` (1 track),
one `Point` (0 tracks), one two-line `MultiLineString` (2 tracks). -/
theorem track_counts_witness :
    extractTracks demoLineData = .ok demoExtracted ∧
    demoExtracted.length = (demoFeatures.map specTrackCount).sum := by
  obtain ⟨tracks, h1, h2, -⟩ := track_counts demoLineData demoFeatures rfl (by decide)
  have he : extractTracks demoLineData = .ok demoExtracted := rfl
  have heq : tracks = demoExtracted := by
    injection h1.symm.trans he
  exact ⟨he, heq ▸ h2⟩

end WebmapToGpx
